import Mathlib

/-!
A verification development for the YumSafe allergy-scanner application.

The definitions below are shallow embeddings of the TypeScript sources:
* `src/constants/allergens.ts` — the EU allergen enumeration,
* `src/context/types.ts` and `src/context/AllergyProfileContext.tsx` — the
  persisted allergy profile and its storage operations,
* the Gemini AI service (`geminiService.ts` and its `types.ts`) — image
  normalization, response parsing and error mapping,
* the scanner screen — the in-flight analysis guard.

JavaScript strings are modelled as Lean `String` (`List Char` underneath;
JS `substring` counts UTF-16 code units, which agrees with characters on
the ASCII data handled here).  The standard-library functions
`JSON.parse` / `JSON.stringify` are modelled by an executable JSON parser
and serializer over a `Json` value type; the parser supports the JSON
grammar with integer numerals and the single-character escape sequences
(`\u` escapes and fraction/exponent numerals are outside the model, and
no claim below depends on them).
-/

/-! ## String helpers: models of the JavaScript string operations used -/

/-- Model of JS `String.prototype.includes` on char lists: `needle` occurs
as a contiguous sublist of `hay`. -/
def containsSub (needle : List Char) : List Char → Bool
  | [] => needle.isEmpty
  | c :: t => needle.isPrefixOf (c :: t) || containsSub needle t

/-- Model of JS `hay.includes(needle)`. -/
def includesStr (hay needle : String) : Bool :=
  containsSub needle.data hay.data

/-- Model of JS `s.startsWith(p)`. -/
def strStartsWith (s p : String) : Bool :=
  p.data.isPrefixOf s.data

/-- Model of JS `s.endsWith(p)`. -/
def strEndsWith (s p : String) : Bool :=
  p.data.isSuffixOf s.data

/-- Model of JS `s.toLowerCase()` (agrees on the ASCII data used here). -/
def lowerStr (s : String) : String :=
  String.mk (s.data.map Char.toLower)

/-- Whitespace recognized by `trim` (ASCII subset of the JS definition). -/
def isWsChar (c : Char) : Bool :=
  c = ' ' || c = '\t' || c = '\n' || c = '\r'

/-- Model of JS `s.trim()`. -/
def trimStr (s : String) : String :=
  String.mk (((s.data.dropWhile isWsChar).reverse.dropWhile isWsChar).reverse)

/-- Model of JS `s.substring(0, n)`. -/
def takeStr (s : String) (n : Nat) : String :=
  String.mk (s.data.take n)

/-- `sep`-separated join of a list of strings, model of JS `Array.join`. -/
def joinSep (sep : String) : List String → String
  | [] => ""
  | [x] => x
  | x :: y :: t => x ++ sep ++ joinSep sep (y :: t)

/-! ## JSON value model

Runtime JavaScript values produced by `JSON.parse` are modelled by `Json`.
JSON numbers are modelled as integers (no claim involves fractional
values; floating point is outside the embedding). -/

inductive Json where
  | null
  | bool (b : Bool)
  | num (n : Int)
  | str (s : String)
  | arr (elems : List Json)
  | obj (fields : List (String × Json))

/-- JS truthiness of a parsed JSON value (`undefined` is represented by
`Option.none` at use sites).  Arrays and objects are always truthy. -/
def truthy : Json → Bool
  | .null => false
  | .bool b => b
  | .num n => n != 0
  | .str s => s != ""
  | .arr _ => true
  | .obj _ => true

/-- JS property access `parsed.k` on a parsed JSON value: `none` models
`undefined` (and the `TypeError` thrown on `null`, which the callers below
catch on the same path).  With duplicate keys `JSON.parse` keeps the last
one, hence the right-biased lookup. -/
def getField? (j : Json) (key : String) : Option Json :=
  match j with
  | .obj fields => lastLookup fields key
  | _ => none
where lastLookup : List (String × Json) → String → Option Json
  | [], _ => none
  | (k, v) :: rest, key =>
    match lastLookup rest key with
    | some w => some w
    | none => if k = key then some v else none

/-! ## JSON parser: executable model of `JSON.parse` -/

/-- JSON whitespace. -/
def isJsonWs (c : Char) : Bool :=
  c = ' ' || c = '\t' || c = '\n' || c = '\r'

/-- Skip JSON whitespace. -/
def skipWs : List Char → List Char
  | [] => []
  | c :: t => if isJsonWs c then skipWs t else c :: t

/-- Single-character JSON escape sequences (quote, backslash and slash
map to themselves; the letters map to their control characters). -/
def escChar (c : Char) : Option Char :=
  if c = '"' || c = '\\' || c = '/' then some c
  else if c = 'n' then some '\n'
  else if c = 't' then some '\t'
  else if c = 'r' then some '\r'
  else if c = 'b' then some '\x08'
  else if c = 'f' then some '\x0c'
  else none

/-- Scan the body of a JSON string literal (after the opening quote) up to
the closing quote.  The flag records a pending backslash. -/
def parseStrAux : Bool → List Char → Option (List Char × List Char)
  | _, [] => none
  | true, c :: rest =>
    match escChar c, parseStrAux false rest with
    | some e, some (s, r) => some (e :: s, r)
    | _, _ => none
  | false, c :: rest =>
    if c = '"' then some ([], rest)
    else if c = '\\' then
      match parseStrAux true rest with
      | some (s, r) => some (s, r)
      | none => none
    else
      match parseStrAux false rest with
      | some (s, r) => some (c :: s, r)
      | none => none

/-- Accumulate a run of decimal digits. -/
def digitsAux : List Char → Nat → Nat × List Char
  | [], acc => (acc, [])
  | c :: rest, acc =>
    if c.isDigit then digitsAux rest (acc * 10 + (c.toNat - 48))
    else (acc, c :: rest)

/-- Parse a nonempty run of decimal digits. -/
def parseDigits : List Char → Option (Nat × List Char)
  | [] => none
  | c :: rest =>
    if c.isDigit then some (digitsAux (c :: rest) 0) else none

/-- Parsing modes: a single value, array elements, object members. -/
inductive PMode where
  | val
  | elems
  | members

/-- Results of the three parsing modes. -/
inductive PRes where
  | v (j : Json)
  | vs (js : List Json)
  | ms (kvs : List (String × Json))

/-- The fuel-indexed JSON parser.  `PMode.elems` parses a nonempty
comma-separated element list up to `]`; `PMode.members` a nonempty member
list up to the closing brace. -/
def parseF : Nat → PMode → List Char → Option (PRes × List Char)
  | 0, _, _ => none
  | f + 1, .val, s =>
    match skipWs s with
    | [] => none
    | c :: rest =>
      if c = '"' then
        match parseStrAux false rest with
        | some (cs, r) => some (.v (.str (String.mk cs)), r)
        | none => none
      else if c = '[' then
        match skipWs rest with
        | [] => none
        | d :: r =>
          if d = ']' then some (.v (.arr []), r)
          else
            match parseF f .elems rest with
            | some (.vs js, r2) => some (.v (.arr js), r2)
            | _ => none
      else if c = '{' then
        match skipWs rest with
        | [] => none
        | d :: r =>
          if d = '}' then some (.v (.obj []), r)
          else
            match parseF f .members rest with
            | some (.ms kvs, r2) => some (.v (.obj kvs), r2)
            | _ => none
      else if c = 't' then
        if "rue".data.isPrefixOf rest then some (.v (.bool true), rest.drop 3) else none
      else if c = 'f' then
        if "alse".data.isPrefixOf rest then some (.v (.bool false), rest.drop 4) else none
      else if c = 'n' then
        if "ull".data.isPrefixOf rest then some (.v .null, rest.drop 3) else none
      else if c = '-' then
        match parseDigits rest with
        | some (n, r) => some (.v (.num (-(n : Int))), r)
        | none => none
      else if c.isDigit then
        match parseDigits (c :: rest) with
        | some (n, r) => some (.v (.num (n : Int)), r)
        | none => none
      else none
  | f + 1, .elems, s =>
    match parseF f .val s with
    | some (.v j, r) =>
      (match skipWs r with
       | [] => none
       | c :: r2 =>
         if c = ',' then
           match parseF f .elems r2 with
           | some (.vs js, r3) => some (.vs (j :: js), r3)
           | _ => none
         else if c = ']' then some (.vs [j], r2)
         else none)
    | _ => none
  | f + 1, .members, s =>
    match skipWs s with
    | [] => none
    | c :: rest =>
      if c = '"' then
        match parseStrAux false rest with
        | some (kcs, r) =>
          (match skipWs r with
           | [] => none
           | d :: r2 =>
             if d = ':' then
               match parseF f .val r2 with
               | some (.v j, r3) =>
                 (match skipWs r3 with
                  | [] => none
                  | e :: r4 =>
                    if e = ',' then
                      match parseF f .members r4 with
                      | some (.ms kvs, r5) => some (.ms ((String.mk kcs, j) :: kvs), r5)
                      | _ => none
                    else if e = '}' then some (.ms [(String.mk kcs, j)], r4)
                    else none)
               | _ => none
             else none)
        | none => none
      else none

/-- Model of `JSON.parse`: `none` models a thrown `SyntaxError`. -/
def jsonParse (s : String) : Option Json :=
  match parseF (2 * s.data.length + 2) .val s.data with
  | some (.v j, r) => if skipWs r = [] then some j else none
  | _ => none

/-! ## Allergen constants (`src/constants/allergens.ts`) -/

/-- The fourteen allergen identifiers of EU Regulation 1169/2011 Annex II
(the TS union type `AllergenId`). -/
inductive AllergenId where
  | gluten
  | crustaceans
  | eggs
  | fish
  | peanuts
  | soybeans
  | milk
  | tree_nuts
  | celery
  | mustard
  | sesame
  | sulphites
  | lupin
  | molluscs
deriving DecidableEq

/-- The string value of an `AllergenId` (in TS the identifier is the
string itself). -/
def allergenIdStr : AllergenId → String
  | .gluten => "gluten"
  | .crustaceans => "crustaceans"
  | .eggs => "eggs"
  | .fish => "fish"
  | .peanuts => "peanuts"
  | .soybeans => "soybeans"
  | .milk => "milk"
  | .tree_nuts => "tree_nuts"
  | .celery => "celery"
  | .mustard => "mustard"
  | .sesame => "sesame"
  | .sulphites => "sulphites"
  | .lupin => "lupin"
  | .molluscs => "molluscs"

/-- The `Allergen` interface: id plus English label. -/
structure Allergen where
  id : AllergenId
  labelEn : String
deriving DecidableEq

/-- `EU_ALLERGENS` from `src/constants/allergens.ts`. -/
def EU_ALLERGENS : List Allergen :=
  [ ⟨.gluten, "Cereals containing gluten (wheat, rye, barley, oats)"⟩
  , ⟨.crustaceans, "Crustaceans"⟩
  , ⟨.eggs, "Eggs"⟩
  , ⟨.fish, "Fish"⟩
  , ⟨.peanuts, "Peanuts"⟩
  , ⟨.soybeans, "Soybeans"⟩
  , ⟨.milk, "Milk and dairy products"⟩
  , ⟨.tree_nuts, "Tree nuts"⟩
  , ⟨.celery, "Celery"⟩
  , ⟨.mustard, "Mustard"⟩
  , ⟨.sesame, "Sesame seeds"⟩
  , ⟨.sulphites, "Sulphur dioxide and sulphites"⟩
  , ⟨.lupin, "Lupin"⟩
  , ⟨.molluscs, "Molluscs"⟩ ]

/-- `getAllergenById` from `src/constants/allergens.ts`. -/
def getAllergenById (id : AllergenId) : Option Allergen :=
  EU_ALLERGENS.find? (fun a => a.id == id)

/-- `getAllergenLabel` from `src/constants/allergens.ts`
(`allergen?.label.en ?? id`). -/
def getAllergenLabel (id : AllergenId) : String :=
  match getAllergenById id with
  | some a => a.labelEn
  | none => allergenIdStr id

/-! ## Allergy profile storage
(`src/context/types.ts`, `src/context/AllergyProfileContext.tsx`)

`AsyncStorage` is modelled as an association list of string keys and
string values in which the most recent `setItem` wins. -/

/-- `ALLERGY_PROFILE_STORAGE_KEY` from `src/context/types.ts`. -/
def ALLERGY_PROFILE_STORAGE_KEY : String := "@yumsafe:allergy_profile"

/-- The device-local key/value store behind `AsyncStorage`. -/
def Storage : Type := List (String × String)

/-- `AsyncStorage.setItem`. -/
def setItem (st : Storage) (k v : String) : Storage :=
  (k, v) :: st

/-- `AsyncStorage.getItem` (`none` models a missing key / `null`). -/
def getItem : Storage → String → Option String
  | [], _ => none
  | (k, v) :: t, key => if k = key then some v else getItem t key

/-- Comma-separated, double-quoted items, as `JSON.stringify` prints a
string array. -/
def joinQuoted : List (List Char) → List Char
  | [] => []
  | [l] => '"' :: l ++ ['"']
  | l :: l2 :: t => '"' :: l ++ '"' :: ',' :: joinQuoted (l2 :: t)

/-- The serialized characters of `JSON.stringify(\x7bselectedAllergenIds:
ids\x7d)`: a one-field object whose value is the array of id strings,
with no whitespace, exactly as `JSON.stringify` prints it. -/
def profileChars (ids : List AllergenId) : List Char :=
  '{' :: '"' :: "selectedAllergenIds".data ++ '"' :: ':' :: '[' ::
    joinQuoted (ids.map (fun i => (allergenIdStr i).data)) ++ [']', '}']

/-- Model of `JSON.stringify` on an `AllergyProfile` value. -/
def stringifyProfile (ids : List AllergenId) : String :=
  String.mk (profileChars ids)

/-- The JSON value `JSON.parse` recovers from a stored profile. -/
def profileJson (ids : List AllergenId) : Json :=
  .obj [("selectedAllergenIds", .arr (ids.map (fun i => .str (allergenIdStr i))))]

/-- `toggleAllergen` from `AllergyProfileContext.tsx`: the pure state
update `prev.includes(id) ? prev.filter(a => a !== id) : [...prev, id]`. -/
def toggleAllergen (prev : List AllergenId) (id : AllergenId) : List AllergenId :=
  if prev.contains id then prev.filter (fun a => a != id) else prev ++ [id]

/-- The auto-save performed by `toggleAllergen`: the new selection is
stored as JSON under the profile key. -/
def toggleAllergenSave (st : Storage) (prev : List AllergenId) (id : AllergenId) :
    Storage × List AllergenId :=
  let newIds := toggleAllergen prev id
  (setItem st ALLERGY_PROFILE_STORAGE_KEY (stringifyProfile newIds), newIds)

/-- The auto-save performed by `setSelectedAllergenIds`. -/
def setSelectedAllergenIdsSave (st : Storage) (ids : List AllergenId) : Storage :=
  setItem st ALLERGY_PROFILE_STORAGE_KEY (stringifyProfile ids)

/-- `loadProfile` from `AllergyProfileContext.tsx`: reads the stored
string; a missing or empty value leaves the previous state (`if (stored)`),
a JSON parse failure resets to `[]` (the catch branch), and otherwise the
new state is `profile.selectedAllergenIds || []`.  The resulting runtime
value is a JSON value (TS casts it to `AllergenId[]` without checking). -/
def loadProfile (st : Storage) (prevState : Json) : Json :=
  match getItem st ALLERGY_PROFILE_STORAGE_KEY with
  | none => prevState
  | some stored =>
    if stored = "" then prevState
    else
      match jsonParse stored with
      | none => .arr []
      | some p =>
        match getField? p "selectedAllergenIds" with
        | some v => if truthy v then v else .arr []
        | none => .arr []

/-! ## Gemini service types (`services/ai/types.ts`) -/

/-- The six error codes of `AnalysisError`. -/
inductive ErrorCode where
  | BLURRY_IMAGE
  | NO_INGREDIENTS
  | API_TIMEOUT
  | API_ERROR
  | INVALID_IMAGE
  | UNKNOWN
deriving DecidableEq

/-- `AnalysisError`: message plus one of the six codes. -/
structure AnalysisError where
  message : String
  code : ErrorCode
deriving DecidableEq

/-- `AnalysisResult`.  The TS interface declares `status: AnalysisStatus`,
`allergens: string[]`, `pal: string[]`, `explanation: string`, but the
values assigned at runtime come from unvalidated JSON fields, so the
lenient fields are modelled as JSON values. -/
structure AnalysisResult where
  status : String
  allergens : List Json
  pal : List Json
  explanation : Json

/-! ## Gemini service (`services/ai/geminiService.ts`) -/

/-- `GEMINI_MODEL_NAME`. -/
def GEMINI_MODEL_NAME : String := "gemini-2.0-flash"

/-- `API_TIMEOUT_MS`: the client-side timeout of the race. -/
def API_TIMEOUT_MS : Nat := 30000

/-- `MAX_IMAGE_SIZE_BYTES`. -/
def MAX_IMAGE_SIZE_BYTES : Nat := 7 * 1024 * 1024

/-- Strip a leading markdown fence: the effect of
`replace(/^` ++ "```" ++ `json\n?/, '')` (`n = 7`) or of the plain-fence
variant (`n = 3`), applied only when the corresponding `startsWith` guard
held, so the prefix is present. -/
def dropFencePrefix (t : String) (n : Nat) : String :=
  String.mk (dropNl (t.data.drop n))
where
  /-- Drop one optional leading newline. -/
  dropNl : List Char → List Char
    | '\n' :: r => r
    | r => r

/-- Strip a trailing markdown fence: the effect of
`replace(/\n?` ++ "```" ++ `$/, '')`: a trailing triple backtick and one
optional newline before it are removed; otherwise the string is kept. -/
def dropFenceSuffix (t : String) : String :=
  if "```".data.isSuffixOf t.data then
    String.mk (dropTrailNl (t.data.take (t.data.length - 3)))
  else t
where
  /-- Drop one optional trailing newline. -/
  dropTrailNl (cs : List Char) : List Char :=
    if cs.getLast? = some '\n' then cs.dropLast else cs

/-- The markdown-code-block stripping at the top of
`parseGeminiResponse` (applied to the trimmed response text). -/
def stripFences (t : String) : String :=
  if strStartsWith t "```json" then dropFenceSuffix (dropFencePrefix t 7)
  else if strStartsWith t "```" then dropFenceSuffix (dropFencePrefix t 3)
  else t

/-- The `try` block of `parseGeminiResponse`: trim, strip fences, parse
JSON, validate the status and build the result.  `none` models a thrown
exception (JSON `SyntaxError`, the `Invalid status` `Error`, or the
`TypeError` from accessing a field of `null`), all of which land in the
same `catch`. -/
def parseAttempt (responseText : String) : Option AnalysisResult :=
  let jsonText := stripFences (trimStr responseText)
  match jsonParse jsonText with
  | none => none
  | some parsed =>
    match getField? parsed "status" with
    | some (.str s) =>
      if s = "safe" || s = "caution" || s = "unsafe" then
        some
          { status := s
          , allergens :=
              match getField? parsed "allergens" with
              | some (.arr xs) => xs
              | _ => []
          , pal :=
              match getField? parsed "pal" with
              | some (.arr xs) => xs
              | _ => []
          , explanation :=
              match getField? parsed "explanation" with
              | some e => if truthy e then e else .str "No explanation provided"
              | none => .str "No explanation provided" }
      else none
    | _ => none

/-- The `catch` block of `parseGeminiResponse`: pattern-sniff the raw
response text, else fall back to a `caution` result embedding the first
200 characters of the raw response. -/
def parseCatch (responseText : String) : Except AnalysisError AnalysisResult :=
  let lowerText := lowerStr responseText
  if includesStr lowerText "blurry" || includesStr lowerText "unclear" ||
      includesStr lowerText "cannot read" then
    .error ⟨"Image is too blurry to read ingredients", .BLURRY_IMAGE⟩
  else if includesStr lowerText "no ingredients" ||
      includesStr lowerText "ingredients not found" then
    .error ⟨"No ingredients found in the image", .NO_INGREDIENTS⟩
  else
    .ok
      { status := "caution"
      , allergens := []
      , pal := []
      , explanation :=
          .str ("Could not parse AI response. Raw response: " ++ takeStr responseText 200) }

/-- `parseGeminiResponse`. -/
def parseGeminiResponse (responseText : String) : Except AnalysisError AnalysisResult :=
  match parseAttempt responseText with
  | some r => .ok r
  | none => parseCatch responseText

/-- `FileSystem.getInfoAsync` result (the fields the service reads). -/
structure FileInfo where
  exists_ : Bool
  size : Option Nat

/-- A caught JavaScript exception: an `AnalysisError`, some other `Error`
carrying a message, or a non-`Error` thrown value. -/
inductive Thrown where
  | analysis (e : AnalysisError)
  | jsErr (msg : String)
  | nonError
deriving DecidableEq

/-- Settlement of `Promise.race([apiPromise, timeoutPromise])`: either the
30-second timer fires first, or the API call settles first (rejecting, or
resolving with the response text). -/
inductive RaceOutcome where
  | timedOut
  | rejected (t : Thrown)
  | resolved (responseText : String)

/-- The external world of `analyzeLabel`: the configured API key, the
file-system reads, and the API call (given prompt, payload and mime type,
which of the race's outcomes happens first). -/
structure GeminiEnv where
  apiKey : Option String
  readFileBase64 : String → Except Thrown String
  getInfo : String → FileInfo
  api : String → String → String → RaceOutcome

/-- `imageUriToBase64`: read the file as base64, reject oversized images
with `INVALID_IMAGE`, and wrap any other exception into `INVALID_IMAGE`
(`AnalysisError`s are rethrown unchanged). -/
def imageUriToBase64 (env : GeminiEnv) (uri : String) : Except AnalysisError String :=
  match env.readFileBase64 uri with
  | .error (.analysis e) => .error e
  | .error (.jsErr m) => .error ⟨"Failed to read image file: " ++ m, .INVALID_IMAGE⟩
  | .error .nonError => .error ⟨"Failed to read image file: Unknown error", .INVALID_IMAGE⟩
  | .ok base64 =>
    let info := env.getInfo uri
    match info.size with
    | some sz =>
      if info.exists_ && decide (sz > MAX_IMAGE_SIZE_BYTES) then
        .error ⟨"Image size (" ++ toString sz ++
          " bytes) exceeds maximum allowed size (" ++ toString MAX_IMAGE_SIZE_BYTES ++
          " bytes)", .INVALID_IMAGE⟩
      else .ok base64
    | none => .ok base64

/-- Line terminators, which `.` in a JS regex does not match. -/
def isLineTerm (c : Char) : Bool :=
  c = '\n' || c = '\r' || c = '\u2028' || c = '\u2029'

/-- The JS regex match `imageInput.match(/^data:([^;]+);base64,(.+)$/)`:
a nonempty semicolon-free mime type, the literal `;base64,`, and a
nonempty payload free of line terminators reaching the end of the string.
Returns `(mime, payload)`. -/
def matchDataUri (s : String) : Option (String × String) :=
  if strStartsWith s "data:" then
    let rest := s.data.drop 5
    let mime := rest.takeWhile (fun c => c != ';')
    match rest.dropWhile (fun c => c != ';') with
    | [] => none
    | _ :: r2 =>
      if mime.isEmpty then none
      else if "base64,".data.isPrefixOf r2 then
        let payload := r2.drop 7
        if payload.isEmpty then none
        else if payload.any isLineTerm then none
        else some (String.mk mime, String.mk payload)
      else none
  else none

/-- Index of the last comma in a character list. -/
def lastCommaIdx (cs : List Char) : Option Nat :=
  go cs 0 none
where
  go : List Char → Nat → Option Nat → Option Nat
    | [], _, acc => acc
    | c :: t, i, acc => go t (i + 1) (if c = ',' then some i else acc)

/-- The fallback `imageInput.replace(/^data:.*,/, '')` taken when the full
data-URI regex fails: greedy `.*` stops at line terminators, so
everything from the start through the last comma of the first line is
removed; with no such comma the string is unchanged. -/
def stripDataPrefix (s : String) : String :=
  let rest := s.data.drop 5
  match lastCommaIdx (rest.takeWhile (fun c => !isLineTerm c)) with
  | some k => String.mk (rest.drop (k + 1))
  | none => s

/-- Step 1 of `analyzeLabel`: normalize the image input into a bare
base64 payload plus a mime type. -/
def normalizeImage (env : GeminiEnv) (imageInput : String) :
    Except AnalysisError (String × String) :=
  if strStartsWith imageInput "data:" then
    match matchDataUri imageInput with
    | some (mime, payload) => .ok (payload, mime)
    | none => .ok (stripDataPrefix imageInput, "image/jpeg")
  else if strStartsWith imageInput "file://" || strStartsWith imageInput "/" then
    match imageUriToBase64 env imageInput with
    | .error e => .error e
    | .ok b =>
      .ok (b, if strEndsWith (lowerStr imageInput) ".png" then "image/png" else "image/jpeg")
  else .ok (imageInput, "image/jpeg")

/-- Step 2 of `analyzeLabel`: the user-profile sentence of the prompt. -/
def userProfileText (ids : List AllergenId) : String :=
  if ids.length > 0 then
    "User\x27s allergy profile: " ++ joinSep ", " (ids.map getAllergenLabel)
  else "User has no selected allergens (scanning for all allergens)"

/-- Step 5 of `analyzeLabel`: the full prompt. -/
def buildPrompt (ids : List AllergenId) : String :=
  userProfileText ids ++
    "\n\nAnalyze this ingredient label image and determine if it\x27s safe for the user based on their allergy profile."

/-- The `catch` block of `analyzeLabel`, split into its string patterns. -/
def apiKeyPattern (m : String) : Bool :=
  includesStr m "EXPO_PUBLIC_GEMINI_API_KEY" || includesStr m "API key" || includesStr m "apiKey"

/-- Timeout patterns of the `catch` block. -/
def timeoutPattern (m : String) : Bool :=
  includesStr m "timeout" || includesStr m "TIMEOUT"

/-- Rate-limit patterns of the `catch` block. -/
def rateLimitPattern (m : String) : Bool :=
  includesStr m "429" || includesStr m "Resource exhausted" ||
    includesStr m "rate limit" || includesStr m "quota"

/-- API-error patterns of the `catch` block. -/
def apiPattern (m : String) : Bool :=
  includesStr m "API" || includesStr m "401" || includesStr m "403"

/-- Image-error patterns of the `catch` block. -/
def imagePattern (m : String) : Bool :=
  includesStr m "image" || includesStr m "blurry" || includesStr m "read"

/-- The `catch` block of `analyzeLabel`: `AnalysisError`s are rethrown
unchanged, other `Error`s are mapped by the message patterns in order,
everything else becomes `UNKNOWN`. -/
def mapCaughtError : Thrown → AnalysisError
  | .analysis e => e
  | .jsErr m =>
    if apiKeyPattern m then
      ⟨"API key not configured: " ++ m ++
        ". Please add EXPO_PUBLIC_GEMINI_API_KEY to your .env file.", .API_ERROR⟩
    else if timeoutPattern m then ⟨"API request timed out", .API_TIMEOUT⟩
    else if rateLimitPattern m then
      ⟨"API rate limit exceeded. Please wait a moment and try again.", .API_ERROR⟩
    else if apiPattern m then ⟨"API error: " ++ m, .API_ERROR⟩
    else if imagePattern m then ⟨"Image error: " ++ m, .BLURRY_IMAGE⟩
    else ⟨"Unknown error during analysis: " ++ m, .UNKNOWN⟩
  | .nonError => ⟨"Unknown error during analysis: Unknown error", .UNKNOWN⟩

/-- The `try` block of `analyzeLabel`: normalize the image, require the
API key (`getGeminiClient` throws a plain `Error` when it is missing),
race the API call against the 30-second timer, and parse the response.
Errors carry the kind of JavaScript value thrown. -/
def analyzeLabelTry (env : GeminiEnv) (imageInput : String) (ids : List AllergenId) :
    Except Thrown AnalysisResult :=
  match normalizeImage env imageInput with
  | .error e => .error (.analysis e)
  | .ok pm =>
    match env.apiKey with
    | none =>
      .error (.jsErr "EXPO_PUBLIC_GEMINI_API_KEY is not set. Please add it to your .env file.")
    | some _ =>
      match env.api (buildPrompt ids) pm.1 pm.2 with
      | .timedOut => .error (.analysis ⟨"API request timed out", .API_TIMEOUT⟩)
      | .rejected t => .error t
      | .resolved text =>
        match parseGeminiResponse text with
        | .ok r => .ok r
        | .error e => .error (.analysis e)

/-- `analyzeLabel`: the `try` block wrapped by the error-mapping `catch`. -/
def analyzeLabel (env : GeminiEnv) (imageInput : String) (ids : List AllergenId) :
    Except AnalysisError AnalysisResult :=
  match analyzeLabelTry env imageInput ids with
  | .ok r => .ok r
  | .error t => .error (mapCaughtError t)

/-- The status validation of `parseGeminiResponse`: the `status` field is
one of the three literal strings (any falsy, non-string or unknown value
fails `!parsed.status || !['safe','caution','unsafe'].includes(...)`). -/
def statusValid (p : Json) : Bool :=
  match getField? p "status" with
  | some (.str s) => s = "safe" || s = "caution" || s = "unsafe"
  | _ => false

/-- Whether a runtime value is a nonempty string. -/
def isNonEmptyStr : Json → Bool
  | .str s => s != ""
  | _ => false

/-! ## Scanner screen in-flight guard (`ScannerScreen.tsx`)

The four user-triggered handlers and the completion of an analysis are
modelled as events over the screen state.  `isAnalyzing` is the React
state flag; `inFlight` counts `analyzeLabel` calls currently in flight.
State updates are modelled as taking effect before the next event is
processed (JavaScript handlers run to their first `await` atomically, and
`processImageForAnalysis` has no `await` between the `isAnalyzing` check
and `setIsAnalyzing(true)`). -/

/-- The observable scanner-screen state. -/
structure ScannerState where
  isAnalyzing : Bool
  inFlight : Nat
deriving DecidableEq

/-- The guarded entry points plus completion (fulfilment or rejection) of
the in-flight analysis, whose `finally` clears the flag. -/
inductive ScannerEvent where
  | invokeProcess
  | invokeCapture
  | invokePickImage
  | invokeTakePhoto
  | complete
deriving DecidableEq

/-- One event step: every handler returns immediately when `isAnalyzing`
is set (the guards at the top of `processImageForAnalysis`,
`handleCapture`, `handlePickImage` and `handleTakePhoto`), otherwise an
analysis starts; completion runs the `finally` of
`processImageForAnalysis`. -/
def scannerStep (s : ScannerState) : ScannerEvent → ScannerState
  | .complete => ⟨false, s.inFlight - 1⟩
  | _ => if s.isAnalyzing then s else ⟨true, s.inFlight + 1⟩

/-- Run a sequence of events from the initial screen state. -/
def scannerRun (events : List ScannerEvent) : ScannerState :=
  events.foldl scannerStep ⟨false, 0⟩

/-! ## Auxiliary definitions for the statements and proofs -/

/-- A character needing no escaping inside a JSON string literal. -/
def goodChar (c : Char) : Bool :=
  c != '"' && c != '\\'

/-- All characters plain (the allergen ids and the profile key qualify). -/
def goodChars (cs : List Char) : Bool :=
  cs.all goodChar

/-- A concrete environment (used to instantiate theorems): the key is
configured, files read successfully and the API call always times out. -/
def envStub : GeminiEnv :=
  ⟨some "key", fun _ => .ok "B64", fun _ => ⟨true, some 10⟩, fun _ _ _ => .timedOut⟩

/-! ## Parser lemmas: `jsonParse` recovers a stored profile -/

/-- `skipWs` is the identity on a list starting with a non-whitespace
character. -/
theorem skipWs_cons_of_not_ws {c : Char} (t : List Char) (h : isJsonWs c = false) :
    skipWs (c :: t) = c :: t := by
  simp [skipWs, h]

/-- Scanning a plain string body stops exactly at the closing quote. -/
theorem parseStrAux_append (cs : List Char) (rest : List Char) (h : goodChars cs = true) :
    parseStrAux false (cs ++ '"' :: rest) = some (cs, rest) := by
  induction cs with
  | nil => simp [parseStrAux]
  | cons c t ih =>
    simp only [goodChars, List.all_cons, Bool.and_eq_true, goodChar, bne_iff_ne, ne_eq] at h
    obtain ⟨⟨h1, h2⟩, h3⟩ := h
    have ih' := ih (by simpa [goodChars] using h3)
    simp only [List.cons_append, parseStrAux, if_neg h1, if_neg h2]
    rw [List.append_eq, ih']

/-- Parsing a double-quoted plain string as a value. -/
theorem parseF_val_str (f : Nat) (cs rest : List Char) (h : goodChars cs = true) :
    parseF (f + 1) .val ('"' :: (cs ++ '"' :: rest)) =
      some (.v (.str (String.mk cs)), rest) := by
  simp only [parseF]
  rw [skipWs_cons_of_not_ws _ (by decide)]
  simp [parseStrAux_append cs rest h]

/-- `skipWs` specializations at the delimiter characters. -/
theorem skipWs_quote (t : List Char) : skipWs ('"' :: t) = '"' :: t :=
  skipWs_cons_of_not_ws t (by decide)

/-- `skipWs` at a right bracket. -/
theorem skipWs_rsqb (t : List Char) : skipWs (']' :: t) = ']' :: t :=
  skipWs_cons_of_not_ws t (by decide)

/-- `skipWs` at a comma. -/
theorem skipWs_comma (t : List Char) : skipWs (',' :: t) = ',' :: t :=
  skipWs_cons_of_not_ws t (by decide)

/-- `skipWs` at a colon. -/
theorem skipWs_colon (t : List Char) : skipWs (':' :: t) = ':' :: t :=
  skipWs_cons_of_not_ws t (by decide)

/-- `skipWs` at a left brace. -/
theorem skipWs_lcurly (t : List Char) : skipWs ('{' :: t) = '{' :: t :=
  skipWs_cons_of_not_ws t (by decide)

/-- `skipWs` at a right brace. -/
theorem skipWs_rcurly (t : List Char) : skipWs ('}' :: t) = '}' :: t :=
  skipWs_cons_of_not_ws t (by decide)

/-- `skipWs` at a left bracket. -/
theorem skipWs_lsqb (t : List Char) : skipWs ('[' :: t) = '[' :: t :=
  skipWs_cons_of_not_ws t (by decide)

/-- Parsing a comma-separated quoted-string element list up to `]`. -/
theorem parseF_elems_quoted (ls : List (List Char)) :
    ∀ (f : Nat) (rest : List Char), ls ≠ [] →
      (∀ l ∈ ls, goodChars l = true) → ls.length + 1 ≤ f →
      parseF f .elems (joinQuoted ls ++ ']' :: rest) =
        some (.vs (ls.map (fun l => Json.str (String.mk l))), rest) := by
  induction ls with
  | nil => intro f rest hne _ _; exact absurd rfl hne
  | cons l ls2 ih =>
    intro f rest _ hg hf
    simp only [List.length_cons] at hf
    obtain ⟨f1, rfl⟩ : ∃ f1, f = f1 + 1 := ⟨f - 1, by omega⟩
    have hl : goodChars l = true := hg l (by simp)
    cases ls2 with
    | nil =>
      simp only [joinQuoted, List.cons_append, List.append_assoc, List.singleton_append,
        List.nil_append]
      simp only [parseF]
      obtain ⟨f2, rfl⟩ : ∃ f2, f1 = f2 + 1 := ⟨f1 - 1, by omega⟩
      rw [parseF_val_str f2 l (']' :: rest) hl]
      simp [skipWs_rsqb]
    | cons l2 t =>
      simp only [joinQuoted, List.cons_append, List.append_assoc]
      simp only [parseF]
      obtain ⟨f2, rfl⟩ : ∃ f2, f1 = f2 + 1 := ⟨f1 - 1, by omega⟩
      rw [parseF_val_str f2 l (',' :: (joinQuoted (l2 :: t) ++ ']' :: rest)) hl]
      simp only [skipWs_comma, if_true]
      rw [ih (f2 + 1) rest (by simp) (fun x hx => hg x (by simp [hx]))
        (by simp only [List.length_cons] at hf ⊢; omega)]
      simp

/-- Every allergen id consists of plain string characters. -/
theorem goodChars_allergenId (i : AllergenId) : goodChars (allergenIdStr i).data = true := by
  cases i <;> decide

/-- Rebuilding a string from its characters is the identity. -/
theorem stringMk_data (s : String) : String.mk s.data = s := rfl

/-- Scanning the profile key consumes exactly its characters. -/
theorem parseStrAux_key (rest : List Char) :
    parseStrAux false ('s' :: 'e' :: 'l' :: 'e' :: 'c' :: 't' :: 'e' :: 'd' :: 'A' ::
        'l' :: 'l' :: 'e' :: 'r' :: 'g' :: 'e' :: 'n' :: 'I' :: 'd' :: 's' :: '"' :: rest) =
      some ("selectedAllergenIds".data, rest) := by
  simp [parseStrAux]

set_option maxHeartbeats 1600000 in
/-- Parsing a serialized profile recovers its JSON value. -/
theorem parseF_val_profile (ids : List AllergenId) (f : Nat) (hf : ids.length + 4 ≤ f) :
    parseF f .val (profileChars ids) = some (.v (profileJson ids), []) := by
  obtain ⟨f1, rfl⟩ : ∃ f1, f = f1 + 1 := ⟨f - 1, by omega⟩
  simp only [profileChars, List.cons_append, List.append_assoc, List.nil_append]
  simp only [parseF, skipWs_lcurly, skipWs_quote]
  obtain ⟨f2, rfl⟩ : ∃ f2, f1 = f2 + 1 := ⟨f1 - 1, by omega⟩
  simp only [parseF, skipWs_quote, parseStrAux_key, skipWs_colon]
  obtain ⟨f3, rfl⟩ : ∃ f3, f2 = f3 + 1 := ⟨f2 - 1, by omega⟩
  simp only [parseF, skipWs_colon, skipWs_lsqb]
  cases ids with
  | nil =>
    simp [skipWs, isJsonWs, profileJson]
  | cons i t =>
    rw [parseF_elems_quoted ((i :: t).map (fun i => (allergenIdStr i).data)) f3 ('}' :: [])
      (by simp) (by intro x hx; obtain ⟨j, _, rfl⟩ := List.mem_map.1 hx; exact goodChars_allergenId j)
      (by simp only [List.length_map, List.length_cons] at hf ⊢; omega)]
    obtain ⟨T, hT⟩ : ∃ T,
        joinQuoted ((i :: t).map (fun i => (allergenIdStr i).data)) ++ ']' :: '}' :: [] =
          '"' :: T := by
      cases t with
      | nil => exact ⟨(allergenIdStr i).data ++ ['"', ']', '}'], by simp [joinQuoted]⟩
      | cons a b =>
        exact ⟨(allergenIdStr i).data ++ '"' :: ',' ::
          (joinQuoted ((allergenIdStr a).data :: List.map (fun i => (allergenIdStr i).data) b) ++
            [']', '}']), by simp [joinQuoted]⟩
    rw [hT]
    simp only [skipWs_quote, skipWs_rcurly]
    simp [skipWs, isJsonWs, profileJson, Function.comp, stringMk_data]

/-- The serialized element list is at least as long as the list itself. -/
theorem joinQuoted_length_ge (ls : List (List Char)) : ls.length ≤ (joinQuoted ls).length := by
  induction ls with
  | nil => simp [joinQuoted]
  | cons l ls2 ih =>
    cases ls2 with
    | nil => simp [joinQuoted]
    | cons l2 t =>
      simp only [joinQuoted, List.length_cons, List.length_append] at ih ⊢
      omega

/-- The default fuel of `jsonParse` suffices for a serialized profile. -/
theorem profileChars_fuel (ids : List AllergenId) :
    ids.length + 4 ≤ 2 * (profileChars ids).length + 2 := by
  have h := joinQuoted_length_ge (ids.map fun i => (allergenIdStr i).data)
  simp only [List.length_map] at h
  simp only [profileChars, List.length_cons, List.length_append]
  omega

/-- `JSON.parse` recovers the profile stored by `JSON.stringify`. -/
theorem jsonParse_stringifyProfile (ids : List AllergenId) :
    jsonParse (stringifyProfile ids) = some (profileJson ids) := by
  unfold jsonParse
  rw [show (stringifyProfile ids).data = profileChars ids from rfl]
  rw [parseF_val_profile ids (2 * (profileChars ids).length + 2) (profileChars_fuel ids)]
  simp [skipWs]

/-! ## Storage and profile claims -/

/-- `allergenIdStr` is injective. -/
theorem allergenIdStr_inj (i j : AllergenId) (h : allergenIdStr i = allergenIdStr j) :
    i = j := by
  cases i <;> cases j <;> first | rfl | exact absurd h (by decide)

/-- Mapping ids to JSON strings is injective. -/
theorem map_allergen_str_inj :
    ∀ (a b : List AllergenId),
      a.map (fun i => Json.str (allergenIdStr i)) = b.map (fun i => Json.str (allergenIdStr i)) →
      a = b := by
  intro a b
  induction a generalizing b with
  | nil => cases b <;> simp
  | cons x t ih =>
    cases b with
    | nil => simp
    | cons y u =>
      simp only [List.map_cons, List.cons.injEq, Json.str.injEq]
      intro h
      exact ⟨allergenIdStr_inj x y h.1, ih u h.2⟩

/-- Loading right after storing a serialized profile yields its id array. -/
theorem loadProfile_after_store (st : Storage) (ids : List AllergenId) (prevState : Json) :
    loadProfile (setItem st ALLERGY_PROFILE_STORAGE_KEY (stringifyProfile ids)) prevState =
      .arr (ids.map (fun i => .str (allergenIdStr i))) := by
  have hkey : getItem (setItem st ALLERGY_PROFILE_STORAGE_KEY (stringifyProfile ids))
      ALLERGY_PROFILE_STORAGE_KEY = some (stringifyProfile ids) := by
    simp [setItem, getItem]
  have hne : ¬(stringifyProfile ids = "") := by
    intro hEq
    have hd : profileChars ids = "".data := congrArg String.data hEq
    simp [profileChars] at hd
  unfold loadProfile
  rw [hkey]
  simp only [if_neg hne, jsonParse_stringifyProfile]
  simp [profileJson, getField?, getField?.lastLookup, truthy]

/-- C5: selecting an allergen persists and survives reload: after
`toggleAllergen` or `setSelectedAllergenIds` stores the profile as JSON
under `@yumsafe:allergy_profile`, a subsequent `loadProfile` reads back
exactly the stored selection (as its array of id strings, from which the
id list is uniquely determined), regardless of the previous storage
contents and in-memory state: save followed by load is the identity on
the selected-allergen list. -/
theorem spec_C5_save_load_roundtrip :
    (∀ (st : Storage) (ids : List AllergenId) (prevState : Json),
        loadProfile (setSelectedAllergenIdsSave st ids) prevState =
          .arr (ids.map (fun i => .str (allergenIdStr i)))) ∧
    (∀ (st : Storage) (prev : List AllergenId) (id : AllergenId) (prevState : Json),
        loadProfile (toggleAllergenSave st prev id).1 prevState =
          .arr ((toggleAllergen prev id).map (fun i => .str (allergenIdStr i)))) ∧
    (∀ ids1 ids2 : List AllergenId,
        ids1.map (fun i => Json.str (allergenIdStr i)) =
          ids2.map (fun i => Json.str (allergenIdStr i)) → ids1 = ids2) := by
  refine ⟨?_, ?_, map_allergen_str_inj⟩
  · intro st ids prevState
    exact loadProfile_after_store st ids prevState
  · intro st prev id prevState
    exact loadProfile_after_store st (toggleAllergen prev id) prevState

/-- C5 witness at a concrete selection. -/
theorem spec_C5_witness :
    loadProfile (setSelectedAllergenIdsSave [] [.milk]) .null = .arr [.str "milk"] ∧
    ([AllergenId.milk] = [AllergenId.milk]) :=
  ⟨spec_C5_save_load_roundtrip.1 [] [.milk] .null,
    spec_C5_save_load_roundtrip.2.2 [.milk] [.milk] rfl⟩

/-- C6: the persisted entity is a flat list of allergen identifiers drawn
from a fixed enumeration of exactly 14 values: `EU_ALLERGENS` has exactly
14 entries, their ids are pairwise distinct and cover `AllergenId`
exactly, and the storage key is the single static string
`@yumsafe:allergy_profile`. -/
theorem spec_C6_fixed_enumeration :
    EU_ALLERGENS.length = 14 ∧
    (EU_ALLERGENS.map Allergen.id).Nodup ∧
    (∀ a : AllergenId, a ∈ EU_ALLERGENS.map Allergen.id) ∧
    ALLERGY_PROFILE_STORAGE_KEY = "@yumsafe:allergy_profile" :=
  ⟨rfl, by decide, fun a => by cases a <;> decide, rfl⟩

/-- C9: `toggleAllergen` appends an absent id at the end, removes every
occurrence of a present id, and toggling twice from a state without the
id restores the original list. -/
theorem spec_C9_toggle_involution :
    (∀ (prev : List AllergenId) (id : AllergenId), prev.contains id = false →
        toggleAllergen prev id = prev ++ [id]) ∧
    (∀ (prev : List AllergenId) (id : AllergenId), prev.contains id = true →
        toggleAllergen prev id = prev.filter (fun a => a != id)) ∧
    (∀ (prev : List AllergenId) (id : AllergenId), prev.contains id = false →
        toggleAllergen (toggleAllergen prev id) id = prev) := by
  refine ⟨?_, ?_, ?_⟩
  · intro prev id h
    unfold toggleAllergen
    rw [h]
    simp
  · intro prev id h
    unfold toggleAllergen
    rw [h]
    simp
  · intro prev id h
    have hmem : id ∉ prev := by
      simpa [List.contains, List.elem_eq_mem] using h
    have h1 : toggleAllergen prev id = prev ++ [id] := by
      unfold toggleAllergen; rw [h]; simp
    have h2 : (prev ++ [id]).contains id = true := by
      simp [List.contains, List.elem_eq_mem]
    rw [h1]
    unfold toggleAllergen
    rw [h2]
    simp only [if_true]
    rw [List.filter_append]
    have h3 : prev.filter (fun a => a != id) = prev := by
      apply List.filter_eq_self.2
      intro a ha
      simp only [bne_iff_ne, ne_eq]
      intro hEq
      exact hmem (hEq ▸ ha)
    simp [h3]

/-- C9 witness at a concrete list. -/
theorem spec_C9_witness :
    toggleAllergen (toggleAllergen [AllergenId.gluten] .milk) .milk = [AllergenId.gluten] :=
  spec_C9_toggle_involution.2.2 [.gluten] .milk (by decide)

/-! ## Scanner guard claim -/

/-- The invariant preserved by a guarded handler entry. -/
theorem scannerInvoke_inv (s : ScannerState)
    (h1 : s.inFlight ≤ 1) (h2 : s.isAnalyzing = true ↔ s.inFlight = 1) :
    ((if s.isAnalyzing = true then s else (⟨true, s.inFlight + 1⟩ : ScannerState)).inFlight ≤ 1 ∧
      ((if s.isAnalyzing = true then s else (⟨true, s.inFlight + 1⟩ : ScannerState)).isAnalyzing = true ↔
        (if s.isAnalyzing = true then s else (⟨true, s.inFlight + 1⟩ : ScannerState)).inFlight = 1)) := by
  by_cases hA : s.isAnalyzing = true
  · rw [if_pos hA]; exact ⟨h1, h2⟩
  · rw [if_neg hA]
    have h0 : s.inFlight ≠ 1 := fun hEq => hA (h2.2 hEq)
    refine ⟨by simp; omega, by simp; omega⟩

/-- The invariant preserved by every scanner event. -/
theorem scannerStep_inv (s : ScannerState) (e : ScannerEvent)
    (h1 : s.inFlight ≤ 1) (h2 : s.isAnalyzing = true ↔ s.inFlight = 1) :
    (scannerStep s e).inFlight ≤ 1 ∧
      ((scannerStep s e).isAnalyzing = true ↔ (scannerStep s e).inFlight = 1) := by
  cases e with
  | complete =>
    refine ⟨by simp [scannerStep]; omega, ?_⟩
    simp [scannerStep]
    omega
  | invokeProcess => simpa [scannerStep] using scannerInvoke_inv s h1 h2
  | invokeCapture => simpa [scannerStep] using scannerInvoke_inv s h1 h2
  | invokePickImage => simpa [scannerStep] using scannerInvoke_inv s h1 h2
  | invokeTakePhoto => simpa [scannerStep] using scannerInvoke_inv s h1 h2

/-- C8: while an analysis is in flight every handler invocation returns
immediately without starting a second analysis, completion resets
`isAnalyzing`, and along every event sequence at most one analysis is in
flight (with `isAnalyzing` set exactly while one is). -/
theorem spec_C8_single_in_flight :
    (∀ (s : ScannerState) (e : ScannerEvent), e ≠ .complete → s.isAnalyzing = true →
        scannerStep s e = s) ∧
    (∀ s : ScannerState, (scannerStep s .complete).isAnalyzing = false) ∧
    (∀ events : List ScannerEvent,
        (scannerRun events).inFlight ≤ 1 ∧
          ((scannerRun events).isAnalyzing = true ↔ (scannerRun events).inFlight = 1)) := by
  refine ⟨?_, ?_, ?_⟩
  · intro s e he hA
    cases e with
    | complete => exact absurd rfl he
    | invokeProcess => simp [scannerStep, hA]
    | invokeCapture => simp [scannerStep, hA]
    | invokePickImage => simp [scannerStep, hA]
    | invokeTakePhoto => simp [scannerStep, hA]
  · intro s
    simp [scannerStep]
  · intro events
    suffices h : ∀ (evs : List ScannerEvent) (s : ScannerState),
        s.inFlight ≤ 1 → (s.isAnalyzing = true ↔ s.inFlight = 1) →
        (evs.foldl scannerStep s).inFlight ≤ 1 ∧
          ((evs.foldl scannerStep s).isAnalyzing = true ↔ (evs.foldl scannerStep s).inFlight = 1) by
      exact h events ⟨false, 0⟩ (by simp) (by simp)
    intro evs
    induction evs with
    | nil => intro s h1 h2; exact ⟨h1, h2⟩
    | cons e t ih =>
      intro s h1 h2
      have hstep := scannerStep_inv s e h1 h2
      exact ih (scannerStep s e) hstep.1 hstep.2

/-- C8 witness: a concrete blocked invocation. -/
theorem spec_C8_witness :
    scannerStep ⟨true, 1⟩ .invokePickImage = ⟨true, 1⟩ :=
  spec_C8_single_in_flight.1 ⟨true, 1⟩ .invokePickImage (by decide) rfl

/-! ## Response parsing claims -/

/-- C7: `parseGeminiResponse` is total on every input string: it either
returns a result or an `AnalysisError` whose code is `BLURRY_IMAGE` or
`NO_INGREDIENTS`; in particular a JSON parse failure never propagates
(it is caught and diverted to the pattern check or the fallback), so a
non-JSON AI response does not crash the app. -/
theorem spec_C7_parse_total (t : String) (e : AnalysisError)
    (h : parseGeminiResponse t = .error e) :
    e.code = .BLURRY_IMAGE ∨ e.code = .NO_INGREDIENTS := by
  unfold parseGeminiResponse at h
  cases hA : parseAttempt t with
  | some r => rw [hA] at h; simp at h
  | none =>
    rw [hA] at h
    unfold parseCatch at h
    simp only [] at h
    split_ifs at h with h1 h2
    · simp only [Except.error.injEq] at h
      subst h
      left
      rfl
    · simp only [Except.error.injEq] at h
      subst h
      right
      rfl

/-- C7 witness at a concrete blurry response. -/
theorem spec_C7_witness :
    (⟨"Image is too blurry to read ingredients", ErrorCode.BLURRY_IMAGE⟩ :
        AnalysisError).code = .BLURRY_IMAGE ∨
    (⟨"Image is too blurry to read ingredients", ErrorCode.BLURRY_IMAGE⟩ :
        AnalysisError).code = .NO_INGREDIENTS :=
  spec_C7_parse_total "blurry"
    ⟨"Image is too blurry to read ingredients", .BLURRY_IMAGE⟩ rfl

/-- C2 (amended): for every response text whose trimmed,
code-fence-stripped form fails to parse as JSON and whose lower-cased
text contains none of the five error patterns, `parseGeminiResponse`
returns the fallback: status `caution`, empty allergens and pal lists,
and an explanation embedding exactly the first (at most 200) characters
of the raw response text. -/
theorem spec_C2_unparsable_fallback (t : String)
    (hp : jsonParse (stripFences (trimStr t)) = none)
    (h1 : includesStr (lowerStr t) "blurry" = false)
    (h2 : includesStr (lowerStr t) "unclear" = false)
    (h3 : includesStr (lowerStr t) "cannot read" = false)
    (h4 : includesStr (lowerStr t) "no ingredients" = false)
    (h5 : includesStr (lowerStr t) "ingredients not found" = false) :
    parseGeminiResponse t = .ok ⟨"caution", [], [],
      .str ("Could not parse AI response. Raw response: " ++ takeStr t 200)⟩ ∧
    (takeStr t 200).data.length ≤ 200 := by
  constructor
  · simp only [parseGeminiResponse, parseAttempt, hp]
    simp [parseCatch, h1, h2, h3, h4, h5]
  · simp [takeStr, List.length_take]

/-- C2 witness at a concrete unparsable response. -/
theorem spec_C2_witness :
    parseGeminiResponse "hello" = .ok ⟨"caution", [], [],
      .str ("Could not parse AI response. Raw response: " ++ takeStr "hello" 200)⟩ ∧
    (takeStr "hello" 200).data.length ≤ 200 :=
  spec_C2_unparsable_fallback "hello" rfl rfl rfl rfl rfl rfl

/-- The raw response of the C2 counterexample: a fenced JSON block.  It
fails `JSON.parse` as-is (claims hypothesis), contains none of the five
patterns, and yet `parseGeminiResponse` returns the parsed `safe` result
rather than the `caution` fallback, because the fences are stripped
before parsing. -/
def c2raw : String :=
  "```json\n\x7b\"status\":\"safe\",\"allergens\":[],\"pal\":[],\"explanation\":\"ok\"\x7d\n```"

/-- C2 counterexample: the claim as stated (raw text fails to parse and
has no pattern, hence the caution fallback) is false at `c2raw`. -/
theorem spec_C2_counterexample :
    jsonParse c2raw = none ∧
    includesStr (lowerStr c2raw) "blurry" = false ∧
    includesStr (lowerStr c2raw) "unclear" = false ∧
    includesStr (lowerStr c2raw) "cannot read" = false ∧
    includesStr (lowerStr c2raw) "no ingredients" = false ∧
    includesStr (lowerStr c2raw) "ingredients not found" = false ∧
    (parseGeminiResponse c2raw).map (fun r => r.status) = .ok "safe" ∧
    ("safe" : String) ≠ "caution" :=
  ⟨rfl, rfl, rfl, rfl, rfl, rfl, rfl, by decide⟩

/-- Shape of every result produced by the `try` block of
`parseGeminiResponse`. -/
theorem parseAttempt_shape (t : String) (r : AnalysisResult)
    (h : parseAttempt t = some r) :
    (r.status = "safe" ∨ r.status = "caution" ∨ r.status = "unsafe") ∧
    truthy r.explanation = true ∧
    (∀ s, r.explanation = .str s → s ≠ "") := by
  simp only [parseAttempt] at h
  cases hj : jsonParse (stripFences (trimStr t)) with
  | none => rw [hj] at h; simp at h
  | some p =>
    rw [hj] at h
    simp only [] at h
    cases hs : getField? p "status" with
    | none => rw [hs] at h; simp at h
    | some j =>
      rw [hs] at h
      cases j with
      | str s =>
        simp only [] at h
        by_cases hc : (s = "safe" || s = "caution" || s = "unsafe") = true
        · rw [if_pos hc] at h
          simp only [Option.some.injEq] at h
          subst h
          refine ⟨by simpa [or_assoc] using hc, ?_, ?_⟩
          · simp only []
            cases he : getField? p "explanation" with
            | none => simp [he, truthy]
            | some eJ =>
              simp only [he]
              by_cases ht : truthy eJ = true
              · rw [if_pos ht]; exact ht
              · rw [if_neg ht]; decide
          · intro s0 hs0
            simp only [] at hs0
            cases he : getField? p "explanation" with
            | none =>
              simp only [he, Json.str.injEq] at hs0
              subst hs0
              decide
            | some eJ =>
              simp only [he] at hs0
              by_cases ht : truthy eJ = true
              · rw [if_pos ht] at hs0
                subst hs0
                simpa [truthy] using ht
              · rw [if_neg ht] at hs0
                simp only [Json.str.injEq] at hs0
                subst hs0
                decide
        · rw [if_neg hc] at h
          simp at h
      | null => simp at h
      | bool b => simp at h
      | num n => simp at h
      | arr xs => simp at h
      | obj kvs => simp at h

/-- C10 (amended): every result of `parseGeminiResponse` has a status
among `safe`, `caution`, `unsafe` and a truthy explanation (a nonempty
string whenever it is a string — though a truthy non-string explanation
field is passed through as is); when the stripped text parses and the
status field is one of the three values the result is built from the
parsed fields with non-array `allergens`/`pal` replaced by `[]`; and
syntactically valid JSON with an invalid status field is diverted to the
pattern check and caution fallback. -/
theorem spec_C10_result_invariants :
    (∀ (t : String) (r : AnalysisResult), parseGeminiResponse t = .ok r →
        (r.status = "safe" ∨ r.status = "caution" ∨ r.status = "unsafe") ∧
        truthy r.explanation = true ∧
        (∀ s, r.explanation = .str s → s ≠ "")) ∧
    (∀ (t : String) (p : Json) (s : String),
        jsonParse (stripFences (trimStr t)) = some p →
        getField? p "status" = some (.str s) →
        (s = "safe" || s = "caution" || s = "unsafe") = true →
        parseGeminiResponse t = .ok
          { status := s
          , allergens := match getField? p "allergens" with | some (.arr xs) => xs | _ => []
          , pal := match getField? p "pal" with | some (.arr xs) => xs | _ => []
          , explanation := match getField? p "explanation" with
              | some eJ => if truthy eJ then eJ else .str "No explanation provided"
              | none => .str "No explanation provided" }) ∧
    (∀ (t : String) (p : Json),
        jsonParse (stripFences (trimStr t)) = some p →
        statusValid p = false →
        parseGeminiResponse t = parseCatch t) := by
  refine ⟨?_, ?_, ?_⟩
  · intro t r h
    unfold parseGeminiResponse at h
    cases hA : parseAttempt t with
    | some r0 =>
      rw [hA] at h
      simp only [Except.ok.injEq] at h
      subst h
      exact parseAttempt_shape t r0 hA
    | none =>
      rw [hA] at h
      unfold parseCatch at h
      simp only [] at h
      split_ifs at h with h1 h2
      simp only [Except.ok.injEq] at h
      subst h
      refine ⟨by simp, by simp [truthy, String.ext_iff, String.data_append], ?_⟩
      intro s0 hs0
      simp only [Json.str.injEq] at hs0
      subst hs0
      simp [String.ext_iff, String.data_append]
  · intro t p s hj hs hcond
    simp [parseGeminiResponse, parseAttempt, hj, hs, hcond]
  · intro t p hj hsv
    have hA : parseAttempt t = none := by
      simp only [parseAttempt, hj]
      unfold statusValid at hsv
      cases hs : getField? p "status" with
      | none => simp
      | some j =>
        rw [hs] at hsv
        cases j with
        | str s => simp only [] at hsv ⊢; rw [if_neg (by simp [hsv])]
        | null => simp
        | bool b => simp
        | num n => simp
        | arr xs => simp
        | obj kvs => simp
    simp [parseGeminiResponse, hA]

/-- C10 witness at a concrete fallback result. -/
theorem spec_C10_witness :
    ((⟨"caution", [], [],
        .str ("Could not parse AI response. Raw response: " ++ takeStr "hello" 200)⟩ :
          AnalysisResult).status = "safe" ∨
      (⟨"caution", [], [],
        .str ("Could not parse AI response. Raw response: " ++ takeStr "hello" 200)⟩ :
          AnalysisResult).status = "caution" ∨
      (⟨"caution", [], [],
        .str ("Could not parse AI response. Raw response: " ++ takeStr "hello" 200)⟩ :
          AnalysisResult).status = "unsafe") ∧
    truthy (⟨"caution", [], [],
        .str ("Could not parse AI response. Raw response: " ++ takeStr "hello" 200)⟩ :
          AnalysisResult).explanation = true ∧
    (∀ s, (⟨"caution", [], [],
        .str ("Could not parse AI response. Raw response: " ++ takeStr "hello" 200)⟩ :
          AnalysisResult).explanation = .str s → s ≠ "") :=
  spec_C10_result_invariants.1 "hello"
    ⟨"caution", [], [], .str ("Could not parse AI response. Raw response: " ++ takeStr "hello" 200)⟩
    rfl

/-- C10 counterexample: a truthy non-string `explanation` field (here
`true`) is passed through, so the returned explanation is not a nonempty
string as claimed. -/
theorem spec_C10_counterexample :
    (parseGeminiResponse "\x7b\"status\":\"safe\",\"explanation\":true\x7d").map
        (fun r => isNonEmptyStr r.explanation) = .ok false ∧
    (parseGeminiResponse "\x7b\"status\":\"safe\",\"explanation\":true\x7d").map
        (fun r => r.status) = .ok "safe" :=
  ⟨rfl, rfl⟩

/-! ## Service claims -/

/-- C1: every failure of `analyzeLabel` is an `AnalysisError` whose code
is one of the six fixed labels, and a caught non-`AnalysisError` error is
mapped by the message patterns, in their order of priority: API-key
patterns to `API_ERROR`, then `timeout`/`TIMEOUT` to `API_TIMEOUT`, then
429/quota/rate-limit to `API_ERROR`, then `API`/`401`/`403` to
`API_ERROR`, then `image`/`blurry`/`read` to `BLURRY_IMAGE`, and anything
else (including non-`Error` values) to `UNKNOWN`; `AnalysisError`s are
rethrown unchanged, so no other kind of exception escapes. -/
theorem spec_C1_error_taxonomy :
    (∀ (env : GeminiEnv) (input : String) (ids : List AllergenId) (e : AnalysisError),
        analyzeLabel env input ids = .error e →
        e.code ∈ [ErrorCode.BLURRY_IMAGE, .NO_INGREDIENTS, .API_TIMEOUT, .API_ERROR,
          .INVALID_IMAGE, .UNKNOWN]) ∧
    (∀ e : AnalysisError, mapCaughtError (.analysis e) = e) ∧
    (∀ m, apiKeyPattern m = true → (mapCaughtError (.jsErr m)).code = .API_ERROR) ∧
    (∀ m, apiKeyPattern m = false → timeoutPattern m = true →
        (mapCaughtError (.jsErr m)).code = .API_TIMEOUT) ∧
    (∀ m, apiKeyPattern m = false → timeoutPattern m = false → rateLimitPattern m = true →
        (mapCaughtError (.jsErr m)).code = .API_ERROR) ∧
    (∀ m, apiKeyPattern m = false → timeoutPattern m = false → rateLimitPattern m = false →
        apiPattern m = true → (mapCaughtError (.jsErr m)).code = .API_ERROR) ∧
    (∀ m, apiKeyPattern m = false → timeoutPattern m = false → rateLimitPattern m = false →
        apiPattern m = false → imagePattern m = true →
        (mapCaughtError (.jsErr m)).code = .BLURRY_IMAGE) ∧
    (∀ m, apiKeyPattern m = false → timeoutPattern m = false → rateLimitPattern m = false →
        apiPattern m = false → imagePattern m = false →
        (mapCaughtError (.jsErr m)).code = .UNKNOWN) ∧
    (mapCaughtError .nonError).code = .UNKNOWN := by
  refine ⟨?_, fun e => rfl, ?_, ?_, ?_, ?_, ?_, ?_, rfl⟩
  · intro env input ids e h
    cases e with
    | mk msg code => cases code <;> simp
  · intro m h
    simp [mapCaughtError, h]
  · intro m h1 h2
    simp [mapCaughtError, h1, h2]
  · intro m h1 h2 h3
    simp [mapCaughtError, h1, h2, h3]
  · intro m h1 h2 h3 h4
    simp [mapCaughtError, h1, h2, h3, h4]
  · intro m h1 h2 h3 h4 h5
    simp [mapCaughtError, h1, h2, h3, h4, h5]
  · intro m h1 h2 h3 h4 h5
    simp [mapCaughtError, h1, h2, h3, h4, h5]

/-- C1 witness: a timeout-message error maps to `API_TIMEOUT`. -/
theorem spec_C1_witness :
    (mapCaughtError (.jsErr "connection timeout")).code = .API_TIMEOUT :=
  spec_C1_error_taxonomy.2.2.2.1 "connection timeout" (by decide) (by decide)

/-- C4: the API call is raced against the `API_TIMEOUT_MS = 30000`
millisecond timer: when earlier steps succeed, a timer firing first makes
`analyzeLabel` reject with an `AnalysisError` of code `API_TIMEOUT` (the
rethrown race rejection), and an API response settling first is exactly
the one parsed and returned. -/
theorem spec_C4_timeout_race :
    API_TIMEOUT_MS = 30000 ∧
    (∀ (env : GeminiEnv) (input : String) (ids : List AllergenId) (pm : String × String)
        (k : String), normalizeImage env input = .ok pm → env.apiKey = some k →
        (env.api (buildPrompt ids) pm.1 pm.2 = .timedOut →
            analyzeLabel env input ids = .error ⟨"API request timed out", .API_TIMEOUT⟩) ∧
        (∀ t, env.api (buildPrompt ids) pm.1 pm.2 = .resolved t →
            analyzeLabel env input ids = parseGeminiResponse t)) := by
  refine ⟨rfl, ?_⟩
  intro env input ids pm k hn hk
  constructor
  · intro hr
    simp [analyzeLabel, analyzeLabelTry, hn, hk, hr, mapCaughtError]
  · intro t hr
    simp only [analyzeLabel, analyzeLabelTry, hn, hk, hr]
    cases hpg : parseGeminiResponse t with
    | ok r => simp [mapCaughtError]
    | error e2 => simp [mapCaughtError]

/-- C4 witness: a concrete environment whose API call times out. -/
theorem spec_C4_witness :
    analyzeLabel envStub "rawbase64" [] = .error ⟨"API request timed out", .API_TIMEOUT⟩ :=
  (spec_C4_timeout_race.2 envStub "rawbase64" [] ("rawbase64", "image/jpeg") "key"
    rfl rfl).1 rfl

/-- C3 (amended): `analyzeLabel` normalizes the image input by cases: a
full-form data URI yields its payload and mime type; any other string
starting with `data:` has the prefix through the last comma of its first
line stripped (keeping mime `image/jpeg`); a string starting with
`file://` or `/` is read from the file system as base64 with mime
`image/png` exactly when the lower-cased path ends in `.png` (else
`image/jpeg`); and any remaining string is passed through unchanged with
mime `image/jpeg`. -/
theorem spec_C3_image_normalization :
    (∀ (env : GeminiEnv) (input mime payload : String),
        matchDataUri input = some (mime, payload) →
        normalizeImage env input = .ok (payload, mime)) ∧
    (∀ (env : GeminiEnv) (input : String), strStartsWith input "data:" = true →
        matchDataUri input = none →
        normalizeImage env input = .ok (stripDataPrefix input, "image/jpeg")) ∧
    (∀ (env : GeminiEnv) (input : String), strStartsWith input "data:" = false →
        (strStartsWith input "file://" = true ∨ strStartsWith input "/" = true) →
        normalizeImage env input =
          (match imageUriToBase64 env input with
           | .error e => .error e
           | .ok b => .ok (b,
              if strEndsWith (lowerStr input) ".png" = true then "image/png"
              else "image/jpeg"))) ∧
    (∀ (env : GeminiEnv) (input : String), strStartsWith input "data:" = false →
        strStartsWith input "file://" = false → strStartsWith input "/" = false →
        normalizeImage env input = .ok (input, "image/jpeg")) := by
  refine ⟨?_, ?_, ?_, ?_⟩
  · intro env input mime payload h
    by_cases hd : strStartsWith input "data:" = true
    · simp [normalizeImage, hd, h]
    · unfold matchDataUri at h
      rw [if_neg hd] at h
      simp at h
  · intro env input hd hnone
    simp [normalizeImage, hd, hnone]
  · intro env input hd hor
    rcases hor with h | h <;> simp [normalizeImage, hd, h]
  · intro env input h1 h2 h3
    simp [normalizeImage, h1, h2, h3]

/-- C3 witness: a bare base64 payload passes through unchanged. -/
theorem spec_C3_witness :
    normalizeImage envStub "rawbase64" = .ok ("rawbase64", "image/jpeg") :=
  spec_C3_image_normalization.2.2.2 envStub "rawbase64" rfl rfl rfl

/-- C3 counterexample: `data:,x` is not a full-form data URI and has no
file prefix, so the claim as stated says it passes through unchanged, yet
the code strips everything through the last comma and returns `x`. -/
theorem spec_C3_counterexample :
    matchDataUri "data:,x" = none ∧
    strStartsWith "data:,x" "file://" = false ∧
    strStartsWith "data:,x" "/" = false ∧
    normalizeImage envStub "data:,x" = .ok ("x", "image/jpeg") ∧
    ("x" : String) ≠ "data:,x" :=
  ⟨rfl, rfl, rfl, rfl, by decide⟩
